import Mathlib

/-!
# CS-Grad-Tracking — verification of the entity-store controllers

Shallow embedding of the data model (`models/schema.js`) and of the
controller operations of `CourseController` and `JobController`
(course create/update/delete and bulk import, job create/delete and
bulk import), together with proofs settling the frozen claims about
referential integrity, duplicate detection, required-field gating
and bulk-import reconciliation.

Conventions of the embedding:
* MongoDB ObjectIds are modelled as natural numbers; a store carries a
  `nextId` counter standing for fresh-id generation.
* A mongoose query filter is a record of `Option` fields; a document
  matches the filter iff every `some` field of the filter equals the
  document's value (fields the filter omits are unconstrained), which
  is `findOne`/`find` semantics for the flat equality filters the
  controllers build.
* `findOne` returns the first matching document in collection order;
  collections are lists in insertion order.
* JavaScript `undefined` is `Option.none`; `parseInt(undefined)` is
  `NaN`, modelled as `none`, and a query on `NaN` matches no number.
-/

namespace GradTracking

/-! ## String helpers for the import parsing

These re-implement the handful of standard string operations the
controllers use (lower/upper-casing, trimming, single-character
splitting, substring search) by structural recursion over the
character list, so that every definition below evaluates inside the
kernel on concrete inputs. -/

/-- Character-wise lower-casing (JavaScript `toLowerCase` on the ASCII
names handled here). -/
def toLowerStr (s : String) : String :=
  String.mk (s.data.map Char.toLower)

/-- Character-wise upper-casing (JavaScript `toUpperCase`). -/
def toUpperStr (s : String) : String :=
  String.mk (s.data.map Char.toUpper)

/-- Split a character list at every occurrence of `sep` (keeping empty
parts, as JavaScript `split` with a plain separator does). -/
def splitCharAux (sep : Char) : List Char → List Char → List (List Char)
  | [], acc => [acc.reverse]
  | c :: cs, acc =>
    if c = sep then acc.reverse :: splitCharAux sep cs []
    else splitCharAux sep cs (c :: acc)

/-- Split a string at every occurrence of the character `sep`. -/
def splitChar (sep : Char) (s : String) : List String :=
  (splitCharAux sep s.data []).map String.mk

/-- Drop leading whitespace characters. -/
def trimLeftChars (l : List Char) : List Char :=
  l.dropWhile Char.isWhitespace

def trimLeftStr (s : String) : String :=
  String.mk (trimLeftChars s.data)

def trimRightStr (s : String) : String :=
  String.mk (trimLeftChars s.data.reverse).reverse

def trimStr (s : String) : String :=
  trimLeftStr (trimRightStr s)

/-- Digit run to a natural number (helper for `parseIntJS`). -/
def digitsToNat (ds : List Char) : Nat :=
  ds.foldl (fun n c => n * 10 + (c.toNat - 48)) 0

/-- JavaScript `parseInt` as the importers use it: `parseInt(undefined)`
is `NaN` (here `none`); on a string, leading whitespace is skipped and
a leading digit run is parsed, `NaN` when there is none.  (Sign
prefixes never occur in the season/year cells fed to it and are not
modelled.) -/
def parseIntJS (o : Option String) : Option Nat :=
  match o with
  | none => none
  | some s =>
    let ds := (trimLeftChars s.data).takeWhile Char.isDigit
    if ds.isEmpty then none else some (digitsToNat ds)

/-- Tail of the split on `/\s*,\s*/`: parts after the first comma; the
regex consumes the whitespace adjacent to each comma, so interior parts
are trimmed on both sides and the last part only on its left. -/
def splitCommaWsRest : List String → List String
  | [] => []
  | [q] => [trimLeftStr q]
  | q :: qs => trimStr q :: splitCommaWsRest qs

/-- JavaScript `s.split(/\s*,\s*/)` (the `reg`/`commaReg` regex of the
controllers): split on each comma, consuming the whitespace adjacent to
the comma.  A string without a comma is returned whole, untrimmed. -/
def splitCommaWs (s : String) : List String :=
  match splitChar ',' s with
  | [] => [s]
  | [p] => [p]
  | p :: ps => trimRightStr p :: splitCommaWsRest ps

/-- JavaScript `s.split(/\s* \s*/)` (the `spaceReg` regex of
`jobController.upload`): separators are maximal whitespace runs that
contain a space.  Modelled for strings whose whitespace characters are
plain spaces (the only kind occurring in the sheet cells handled here):
interior space runs separate parts, and a leading/trailing run
contributes a leading/trailing empty part exactly as the JS split does. -/
def splitSpaceRuns (s : String) : List String :=
  if s = "" then [""]
  else
    (if s.data.head? = some ' ' then [""] else [])
      ++ (splitChar ' ' s).filter (fun t => t ≠ "")
      ++ (if s.data.reverse.head? = some ' ' then [""] else [])

/-- Is `p` a prefix of `l` (Boolean, by structural recursion)? -/
def listPrefixB (p l : List Char) : Bool :=
  match p, l with
  | [], _ => true
  | _ :: _, [] => false
  | a :: as, b :: bs => a == b && listPrefixB as bs

/-- Does `p` occur as a contiguous run inside `l`? -/
def listInfixB (p l : List Char) : Bool :=
  match l with
  | [] => p.isEmpty
  | _ :: bs => listPrefixB p l || listInfixB p bs

/-- Case-insensitive substring test: the controllers build
`new RegExp(text, "i")` and use it as a mongo filter value, which
matches any string containing `pat` case-insensitively (the regex is
unanchored). -/
def strContainsCI (s pat : String) : Bool :=
  listInfixB (pat.data.map Char.toLower) (s.data.map Char.toLower)

/-- An empty string is dropped by the projection layer (see
`validateModelData` callers: "remove fields that are empty"). -/
def stripEmptyS (o : Option String) : Option String :=
  match o with
  | some s => if s = "" then none else some s
  | none => none

/-! ## Generic list helpers mirroring mongo update semantics -/

/-- Mongoose `Model.update(filter, u)` updates the first matching document only
(no `multi` flag is passed anywhere in these controllers). -/
def updateFirst (p : α → Bool) (f : α → α) : List α → List α
  | [] => []
  | x :: xs => if p x then f x :: xs else x :: updateFirst p f xs

/-- Mongo `$addToSet`: append the element iff it is not already present. -/
def addToSet [BEq α] (l : List α) (x : α) : List α :=
  if l.contains x then l else l ++ [x]

/-! ## Entities (`models/schema.js`)

Each structure carries the schema-declared fields that the verified
operations read or write; fields the controllers under verification
never touch (demographics, milestones, …) are omitted from the
embedding.  `sect` embeds the Course field `section` (a Lean keyword).
Fields that a stored document may lack (mongoose fields without a value
at save time) are `Option`s. -/

structure Faculty where
  id : Nat
  lastName : String
  firstName : String
  deriving DecidableEq, Repr

structure Semester where
  id : Nat
  year : Nat
  season : String
  deriving DecidableEq, Repr

structure Course where
  id : Nat
  department : String
  number : Int
  univNumber : Int
  name : String
  category : String
  topic : String
  hours : Int
  sect : String
  faculty : Nat
  semester : Nat
  deriving DecidableEq, Repr

structure Grade where
  id : Nat
  grade : String
  course : Nat
  deriving DecidableEq, Repr

structure Job where
  id : Nat
  position : String
  supervisor : Nat
  semester : Option Nat
  course : Option Nat
  description : Option String
  hours : Option Int
  fundingSource : Option String
  deriving DecidableEq, Repr

structure Student where
  id : Nat
  onyen : String
  jobHistory : List Nat
  grades : List Nat
  deriving DecidableEq, Repr

/-- The persisted collections, plus the fresh-id counter. -/
structure Store where
  faculties : List Faculty
  semesters : List Semester
  courses : List Course
  jobs : List Job
  grades : List Grade
  students : List Student
  nextId : Nat
  deriving DecidableEq, Repr

/-- Well-formedness: every id stored in the job collection or referenced
from a student's job history was produced by the id generator, hence is
below `nextId`. -/
def StoreWf (st : Store) : Prop :=
  (∀ j ∈ st.jobs, j.id < st.nextId) ∧
  (∀ s ∈ st.students, ∀ x ∈ s.jobHistory, x < st.nextId)

/-- The `category` enum of the Course schema; mongoose validates it on
`save`, rejecting documents whose category is outside the list. -/
def courseCategoryEnum : List String := ["NA", "Theory", "Systems", "Appls"]

/-- The `position` enum of the Job schema, validated by mongoose on `save`. -/
def jobPositionEnum : List String := ["RA", "TA", "OTHER"]

/-- The category-normalization `switch` of `courseController.upload`
(part_000 lines 525–542): `t`/`T` → `Theory`, `s`/`S` → `Systems`,
`a`/`A`/`applications`/`Applications` → `Appls`, default: unchanged. -/
def normalizeCategory (c : String) : String :=
  if c = "t" ∨ c = "T" then "Theory"
  else if c = "s" ∨ c = "S" then "Systems"
  else if c = "a" ∨ c = "A" ∨ c = "applications" ∨ c = "Applications" then "Appls"
  else c

/-! ## Delete guards (`courseController.delete`, `jobController.delete`) -/

/-- Outcome of `courseController.delete` (part_000 lines 364–397). -/
inductive CourseDeleteOutcome where
  | studentReferencing
  | jobReferencing
  | deleted
  | courseNotFound
  deriving DecidableEq, Repr

/-- The first guard of `courseController.delete` issues the query
`\x7bcourseHistory: \x7b$elemMatch: \x7b_id: id\x7d\x7d\x7d` against the
Student collection.  The live Student schema (part_000 lines 26–83)
declares no `courseHistory` field — that field exists only in the older
schema file (part_001 line 63) — and mongoose strict mode strips
undeclared fields at save time, so no stored Student document carries a
`courseHistory` array and the query's match set is empty for every
store: the predicate is constantly `false`. -/
def studentCourseHistoryElemMatch (_s : Student) (_id : Nat) : Bool :=
  false

/-- Handler `courseController.delete` (part_000 lines 364–397): first find the
students matching the `courseHistory` `$elemMatch` query; if any, refuse
naming the student; else find the jobs whose `course` field is the id;
if any, refuse naming the job; else `findOneAndRemove` the course
(remove the first course with the id, `CourseNotFound` if none). -/
def courseControllerDelete (st : Store) (id : Nat) : Store × CourseDeleteOutcome :=
  let studentBlockers := st.students.filter (fun s => studentCourseHistoryElemMatch s id)
  if studentBlockers.length > 0 then (st, .studentReferencing)
  else
    let jobBlockers := st.jobs.filter (fun j => j.course == some id)
    if jobBlockers.length > 0 then (st, .jobReferencing)
    else
      match st.courses.find? (fun c => c.id == id) with
      | some _ => ({ st with courses := st.courses.eraseP (fun c => c.id == id) }, .deleted)
      | none => (st, .courseNotFound)

/-- Outcome of `jobController.delete` (JobController.js lines 147–169). -/
inductive JobDeleteOutcome where
  | studentReferencing
  | deleted
  | jobNotFound
  deriving DecidableEq, Repr

/-- Handler `jobController.delete`: find the students whose `jobHistory` array
contains the id (`\x7bjobHistory: id\x7d` matches documents whose array
field has the id among its elements); if any, refuse naming the
student; else `findOneAndRemove` the job. -/
def jobControllerDelete (st : Store) (id : Nat) : Store × JobDeleteOutcome :=
  let studentBlockers := st.students.filter (fun s => s.jobHistory.contains id)
  if studentBlockers.length > 0 then (st, .studentReferencing)
  else
    match st.jobs.find? (fun j => j.id == id) with
    | some _ => ({ st with jobs := st.jobs.eraseP (fun j => j.id == id) }, .deleted)
    | none => (st, .jobNotFound)

/-! ## Create / update requests

The raw HTML-form payload projected on the schema fields.  The record
types below carry exactly the schema-declared fields (plus `_id` for
update), each optional since a form may omit or leave a field empty;
`util.validateModelData` has already no non-schema key to strip on
these record types, so its effect reduces to dropping empty strings. -/

structure CourseInput where
  department : Option String
  number : Option Int
  univNumber : Option Int
  name : Option String
  category : Option String
  topic : Option String
  hours : Option Int
  sect : Option String
  faculty : Option Nat
  semester : Option Nat
  deriving DecidableEq, Repr

structure JobInput where
  position : Option String
  supervisor : Option Nat
  semester : Option Nat
  course : Option Nat
  description : Option String
  hours : Option Int
  fundingSource : Option String
  deriving DecidableEq, Repr

/-- Modelled from the spec: `util.validateModelData` lives in
`controllers/util.js`, which is not among the source files; per the
spec's `project(rawRecord, entitySchema)` it retains only
schema-declared keys (the record type already has exactly those) and,
per its callers' comments, removes fields that are empty.  On a
`CourseInput` this strips empty strings. -/
def validateCourseInput (i : CourseInput) : CourseInput :=
  { i with
    department := stripEmptyS i.department
    name := stripEmptyS i.name
    category := stripEmptyS i.category
    topic := stripEmptyS i.topic
    sect := stripEmptyS i.sect }

/-- Modelled from the spec: `util.validateModelData` applied to a Job
payload (see `validateCourseInput`). -/
def validateJobInput (i : JobInput) : JobInput :=
  { i with
    position := stripEmptyS i.position
    description := stripEmptyS i.description
    fundingSource := stripEmptyS i.fundingSource }

/-- Filter-field test: a `some` filter value must equal the document's
value; an omitted filter field is unconstrained. -/
def optMatches [BEq α] (filter : Option α) (v : α) : Bool :=
  match filter with
  | some x => x == v
  | none => true

/-- Filter-field test against a document field that may itself be
absent: `\x7bf: v\x7d` matches only documents that carry `f = v`. -/
def optMatchesOpt [BEq α] (filter : Option α) (v : Option α) : Bool :=
  match filter with
  | some x => v == some x
  | none => true

/-- Query `schema.Course.findOne(input)`: does the stored course match the
input on every provided field? -/
def courseMatchesInput (i : CourseInput) (c : Course) : Bool :=
  optMatches i.department c.department &&
  optMatches i.number c.number &&
  optMatches i.univNumber c.univNumber &&
  optMatches i.name c.name &&
  optMatches i.category c.category &&
  optMatches i.topic c.topic &&
  optMatches i.hours c.hours &&
  optMatches i.sect c.sect &&
  optMatches i.faculty c.faculty &&
  optMatches i.semester c.semester

/-- Query `schema.Job.findOne(query)`: does the stored job match the query on
every provided field? -/
def jobMatchesInput (q : JobInput) (j : Job) : Bool :=
  optMatches q.position j.position &&
  optMatches q.supervisor j.supervisor &&
  optMatchesOpt q.semester j.semester &&
  optMatchesOpt q.course j.course &&
  optMatchesOpt q.description j.description &&
  optMatchesOpt q.hours j.hours &&
  optMatchesOpt q.fundingSource j.fundingSource

/-- Modelled from the spec: `util.allFieldsExist` lives in
`controllers/util.js`, which is not among the source files; the spec's
`allRequiredFieldsPresent(rawRecord, entitySchema)` reports whether
every field declared on the schema is present and non-empty in the raw
record. -/
def allFieldsExistCourse (i : CourseInput) : Bool :=
  (stripEmptyS i.department).isSome &&
  i.number.isSome &&
  i.univNumber.isSome &&
  (stripEmptyS i.name).isSome &&
  (stripEmptyS i.category).isSome &&
  (stripEmptyS i.topic).isSome &&
  i.hours.isSome &&
  (stripEmptyS i.sect).isSome &&
  i.faculty.isSome &&
  i.semester.isSome

/-- The Course built by `new schema.Course(...)` from a complete input
(the `getD` defaults are unreachable under `allFieldsExistCourse`). -/
def courseOfInput (i : CourseInput) (newId : Nat) : Course :=
  { id := newId
    department := i.department.getD ""
    number := i.number.getD 0
    univNumber := i.univNumber.getD 0
    name := i.name.getD ""
    category := i.category.getD ""
    topic := i.topic.getD ""
    hours := i.hours.getD 0
    sect := i.sect.getD ""
    faculty := i.faculty.getD 0
    semester := i.semester.getD 0 }

inductive CoursePostOutcome where
  | alreadyExists
  | deptFormatError
  | created
  | saveError
  | requiredParamNotFound
  deriving DecidableEq, Repr

/-- Handler `courseController.post` (part_000 lines 237–264): gate on
`allFieldsExist`; `findOne(input)` — a match refuses with the duplicate
message; else a department code whose length is not 4 refuses with the
format message; else save.  `save` applies the schema's enum validation
to `category`. -/
def courseControllerPost (st : Store) (input : CourseInput) : Store × CoursePostOutcome :=
  if allFieldsExistCourse input then
    match st.courses.find? (courseMatchesInput input) with
    | some _ => (st, .alreadyExists)
    | none =>
      if (input.department.getD "").length ≠ 4 then (st, .deptFormatError)
      else
        let c := courseOfInput (validateCourseInput input) st.nextId
        if c.category ∈ courseCategoryEnum then
          ({ st with courses := st.courses ++ [c], nextId := st.nextId + 1 }, .created)
        else (st, .saveError)
  else (st, .requiredParamNotFound)

/-- The Job built by `new schema.Job(element)`: the constructor keeps
only schema-declared fields (dropping e.g. `onyen`) but does not strip
empty strings. -/
def jobOfInput (i : JobInput) (newId : Nat) : Job :=
  { id := newId
    position := i.position.getD ""
    supervisor := i.supervisor.getD 0
    semester := i.semester
    course := i.course
    description := i.description
    hours := i.hours
    fundingSource := i.fundingSource }

inductive JobPostOutcome where
  | alreadyExists
  | created
  | saveError
  | requiredParamNotFound
  deriving DecidableEq, Repr

/-- Handler `jobController.post` (JobController.js lines 26–52): project the
payload, require only `position` and `supervisor`, duplicate-check with
`findOne(input)`, else save (the schema's enum validation applies to
`position` on save). -/
def jobControllerPost (st : Store) (input : JobInput) : Store × JobPostOutcome :=
  let input := validateJobInput input
  if input.position.isSome && input.supervisor.isSome then
    match st.jobs.find? (jobMatchesInput input) with
    | some _ => (st, .alreadyExists)
    | none =>
      let j := jobOfInput input st.nextId
      if j.position ∈ jobPositionEnum then
        ({ st with jobs := st.jobs ++ [j], nextId := st.nextId + 1 }, .created)
      else (st, .saveError)
  else (st, .requiredParamNotFound)

/-- Overwrite the schema fields of a stored course with the provided
fields of the update payload (`findOneAndUpdate(\x7b_id\x7d, input)`). -/
def applyCourseUpdate (i : CourseInput) (c : Course) : Course :=
  { c with
    department := i.department.getD c.department
    number := i.number.getD c.number
    univNumber := i.univNumber.getD c.univNumber
    name := i.name.getD c.name
    category := i.category.getD c.category
    topic := i.topic.getD c.topic
    hours := i.hours.getD c.hours
    sect := i.sect.getD c.sect
    faculty := i.faculty.getD c.faculty
    semester := i.semester.getD c.semester }

/-- Outcome of `courseController.put`.  `formatErrorThenUpdated`
records the branch in which the handler renders the four-letter
department error **and nevertheless falls through** to
`findOneAndUpdate` (part_000 lines 330–342: the `if` has no `else` and
does not return), so both the error render and the update happen. -/
inductive CoursePutOutcome where
  | updated
  | formatErrorThenUpdated
  | formatErrorThenNotFound
  | courseNotFound
  | requiredParamNotFound
  deriving DecidableEq, Repr

/-- Handler `courseController.put` (part_000 lines 326–348): project, gate on
`allFieldsExist`; if the department length is not 4 render the format
error; in every case reach `findOneAndUpdate(\x7b_id: input._id\x7d, input)`,
updating the first course with that id. -/
def courseControllerPut (st : Store) (inputId : Nat) (input0 : CourseInput) :
    Store × CoursePutOutcome :=
  let input := validateCourseInput input0
  if allFieldsExistCourse input then
    let formatError := (input.department.getD "").length ≠ 4
    match st.courses.find? (fun c => c.id == inputId) with
    | some _ =>
      ({ st with courses := updateFirst (fun c => c.id == inputId) (applyCourseUpdate input) st.courses },
       if formatError then .formatErrorThenUpdated else .updated)
    | none => (st, if formatError then .formatErrorThenNotFound else .courseNotFound)
  else (st, .requiredParamNotFound)

/-! ## Sheet parsing shared by both uploads

Both `courseController.upload` (part_000 lines 495–509) and
`jobController.upload` (JobController.js lines 257–271) assemble a
sparse array `data` from the worksheet's cells: for every cell at
column `col` and (1-based) sheet row `row`, `data[row]` receives the
cell's value under the field mapped to `col`; index 0 is never
assigned.  The array is then `shift()`ed twice and the remaining
entries are iterated with `forEach`, which skips holes.

The model below takes the largest row index holding a cell (`maxRow`,
the array's last index) and the per-row assembled record (`rowAt r`,
`none` when sheet row `r` holds no cell, i.e. `data[r]` stays a hole). -/

/-- The `data` array: index 0 is a hole, index `r` (1 ≤ r ≤ maxRow) is
sheet row `r`'s record, or a hole when that row holds no cell. -/
def uploadDataArray (maxRow : Nat) (rowAt : Nat → Option ρ) : List (Option ρ) :=
  none :: (List.range' 1 maxRow).map rowAt

/-- The records the `forEach` visits: two `shift()`s, then the non-hole
entries in order. -/
def uploadProcessedRows (maxRow : Nat) (rowAt : Nat → Option ρ) : List ρ :=
  ((uploadDataArray maxRow rowAt).drop 2).filterMap id

/-! ## Course import (`courseController.upload`, part_000 lines 482–570) -/

/-- A course sheet row after the positional column→field mapping.  The
header map takes `schema.Course.schema.obj` in declaration order:
column A=department, B=number, C=univNumber, D=name, E=category,
F=topic, G=hours, H=section, I=faculty, J=semester. -/
structure RawCourseRow where
  department : Option String
  number : Option Int
  univNumber : Option Int
  name : Option String
  category : Option String
  topic : Option String
  hours : Option Int
  sect : Option String
  faculty : Option String
  semester : Option String
  deriving DecidableEq, Repr

/-- Gate `allFieldsExist(element, schema.Course)` on a raw sheet row
(modelled from the spec, see `allFieldsExistCourse`). -/
def allFieldsExistCourseRow (r : RawCourseRow) : Bool :=
  (stripEmptyS r.department).isSome &&
  r.number.isSome &&
  r.univNumber.isSome &&
  (stripEmptyS r.name).isSome &&
  (stripEmptyS r.category).isSome &&
  (stripEmptyS r.topic).isSome &&
  r.hours.isSome &&
  (stripEmptyS r.sect).isSome &&
  (stripEmptyS r.faculty).isSome &&
  (stripEmptyS r.semester).isSome

/-- Query `schema.Faculty.findOne(\x7blastName: facultyName[0], firstName:
facultyName[1]\x7d)` where both values are `new RegExp(·, "i")`:
unanchored case-insensitive regexes, so substring match;
`facultyName[1]` may be `undefined` (no comma in the cell), and
`new RegExp(undefined, "i")` is the empty regex, matching any string. -/
def findFaculty (faculties : List Faculty) (parts : List String) : Option Faculty :=
  faculties.find? (fun f =>
    strContainsCI f.lastName (parts.headD "") &&
    (match parts.get? 1 with
     | some p => strContainsCI f.firstName p
     | none => true))

/-- Query `schema.Semester.findOne(\x7bseason: parts[0].toUpperCase(), year:
parseInt(parts[1])\x7d)`: exact match on the uppercased season text and
the parsed year; `parseInt` of a missing or non-numeric part is `NaN`,
which matches no stored year. -/
def findSemester (semesters : List Semester) (parts : List String) : Option Semester :=
  let season := toUpperStr (parts.headD "")
  let year? := parseIntJS (parts.get? 1)
  semesters.find? (fun sem =>
    sem.season == season &&
    (match year? with
     | some y => sem.year == y
     | none => false))

/-- Row-level outcome of the course import (the error messages say
"(name) did not save because …"). -/
inductive CourseRowOutcome where
  | ok
  | missingField
  | facultyIncorrect
  | semesterIncorrect
  | saveError
  deriving DecidableEq, Repr

/-- The duplicate-check filter `schema.Course.findOne(element)` after
resolution: `element` then carries all ten fields (the gate passed),
with `faculty`/`semester` replaced by the resolved ids and `category`
normalized. -/
def courseRowMatches (r : RawCourseRow) (cat : String) (fid sid : Nat) (c : Course) : Bool :=
  optMatches r.department c.department &&
  optMatches r.number c.number &&
  optMatches r.univNumber c.univNumber &&
  optMatches r.name c.name &&
  (cat == c.category) &&
  optMatches r.topic c.topic &&
  optMatches r.hours c.hours &&
  optMatches r.sect c.sect &&
  (fid == c.faculty) &&
  (sid == c.semester)

/-- The Course built by `new schema.Course(element)` after resolution. -/
def courseOfRow (r : RawCourseRow) (cat : String) (fid sid : Nat) (newId : Nat) : Course :=
  { id := newId
    department := r.department.getD ""
    number := r.number.getD 0
    univNumber := r.univNumber.getD 0
    name := r.name.getD ""
    category := cat
    topic := r.topic.getD ""
    hours := r.hours.getD 0
    sect := r.sect.getD ""
    faculty := fid
    semester := sid }

/-- One row of `courseController.upload` (part_000 lines 510–567):
gate on `allFieldsExist`; split the faculty cell on `/\s*,\s*/` and
look the faculty up; split the **semester cell on the same comma
regex** (`var semester = element.semester.split(reg)` — the source
reuses `reg`, the comma regex, for the semester cell) and look the
semester up; normalize the category; skip if `findOne(element)` finds a
duplicate; else save (enum validation on `category`). -/
def processCourseRow (st : Store) (el : RawCourseRow) : Store × CourseRowOutcome :=
  if allFieldsExistCourseRow el then
    let facultyName := splitCommaWs (el.faculty.getD "")
    let semesterParts := splitCommaWs (el.semester.getD "")
    match findFaculty st.faculties facultyName with
    | none => (st, .facultyIncorrect)
    | some fac =>
      match findSemester st.semesters semesterParts with
      | none => (st, .semesterIncorrect)
      | some sem =>
        let cat := normalizeCategory (el.category.getD "")
        match st.courses.find? (courseRowMatches el cat fac.id sem.id) with
        | some _ => (st, .ok)
        | none =>
          if cat ∈ courseCategoryEnum then
            let c := courseOfRow el cat fac.id sem.id st.nextId
            ({ st with courses := st.courses ++ [c], nextId := st.nextId + 1 }, .ok)
          else (st, .saveError)
  else (st, .missingField)

/-- The whole course upload over the processed rows, accumulating the
row outcomes (each with the `name` cell the error message names). -/
def courseUpload (st : Store) (maxRow : Nat) (rowAt : Nat → Option RawCourseRow) :
    Store × List (Option String × CourseRowOutcome) :=
  (uploadProcessedRows maxRow rowAt).foldl
    (fun acc el =>
      let r := processCourseRow acc.1 el
      (r.1, acc.2 ++ [(el.name, r.2)]))
    (st, [])

/-! ## Job import (`jobController.upload`, JobController.js lines 243–357) -/

/-- A job sheet row after the positional column→field mapping: a
synthetic leading `onyen` column, then `schema.Job.schema.obj` in
declaration order: A=onyen, B=position, C=supervisor, D=semester,
E=course, F=description, G=hours, H=fundingSource. -/
structure RawJobRow where
  onyen : Option String
  position : Option String
  supervisor : Option String
  semester : Option String
  course : Option String
  description : Option String
  hours : Option Int
  fundingSource : Option String
  deriving DecidableEq, Repr

/-- Modelled from the spec: the course-cell split at JobController.js
line 290 is `element.course.split(reg)`, and the identifier `reg` has
no binding in the source files provided (the in-scope regexes are
`commaReg` and `spaceReg`); the comment and the spec describe the cell
as a `DEPT NUMBER SECTION` text split into its three components, i.e.
a whitespace split, modelled with the space-run splitter. -/
def splitCourseCell (s : String) : List String :=
  splitSpaceRuns s

/-- Query `schema.Course.findOne(\x7bdepartment: new RegExp(courseInfo[0], "i"),
number: courseInfo[1], section: courseInfo[2], faculty: element.supervisor,
semester: element.semester\x7d)`: department by unanchored
case-insensitive regex; `number` is a text cell cast to a number by
mongoose (a non-numeric or missing part matches no stored number);
a missing `section` part is `undefined` and mongoose drops
`undefined`-valued filter fields. -/
def findCourseForJob (courses : List Course) (parts : List String) (fid sid : Nat) :
    Option Course :=
  courses.find? (fun c =>
    strContainsCI c.department (parts.headD "") &&
    (match parseIntJS (parts.get? 1) with
     | some n => c.number == (n : Int)
     | none => false) &&
    (match parts.get? 2 with
     | some t => c.sect == t
     | none => true) &&
    (fid == c.faculty) &&
    (sid == c.semester))

/-- Row-level outcome of the job import. -/
inductive JobRowOutcome where
  | ok
  | missingField
  | facultyIncorrect
  | semesterIncorrect
  | courseIncorrect
  | studentNotFound
  | saveError
  deriving DecidableEq, Repr

/-- The reference-resolution prefix of one row of `jobController.upload`
(lines 274–293): require `position`, `supervisor` and `semester`
cells; split the supervisor cell on `commaReg` and look the faculty up;
split the semester cell on `spaceReg`, uppercase the season and parse
the year, and look the semester up; uppercase the position; if a course
cell is present, split it and look the course up (constrained by the
resolved faculty and semester).  Returns the uppercased position, the
resolved faculty and semester ids and the optional resolved course id,
or the row error. -/
def resolveJobRow (faculties : List Faculty) (semesters : List Semester)
    (courses : List Course) (row : RawJobRow) :
    Except JobRowOutcome (String × Nat × Nat × Option Nat) :=
  match row.position, row.supervisor, row.semester with
  | some pos, some sup, some sem =>
    match findFaculty faculties (splitCommaWs sup) with
    | none => .error .facultyIncorrect
    | some fac =>
      match findSemester semesters (splitSpaceRuns sem) with
      | none => .error .semesterIncorrect
      | some semRec =>
        let posU := toUpperStr pos
        match row.course with
        | some courseText =>
          match findCourseForJob courses (splitCourseCell courseText) fac.id semRec.id with
          | none => .error .courseIncorrect
          | some c => .ok (posU, fac.id, semRec.id, some c.id)
        | none => .ok (posU, fac.id, semRec.id, none)
  | _, _, _ => .error .missingField

/-- The duplicate-check filter
`util.validateModelData(element, schema.Job)` built from the resolved
row: `onyen` is dropped (not a schema field), empty strings are
dropped, and the resolved values replace the text cells. -/
def jobQueryOfRow (row : RawJobRow) (posU : String) (fid sid : Nat) (cid : Option Nat) :
    JobInput :=
  { position := some posU
    supervisor := some fid
    semester := some sid
    course := cid
    description := stripEmptyS row.description
    hours := row.hours
    fundingSource := stripEmptyS row.fundingSource }

/-- The Job built by `new schema.Job(element)` from the resolved row:
the constructor keeps the schema fields of `element` as they are
(`onyen` is dropped; empty strings are not stripped here). -/
def jobOfRow (row : RawJobRow) (posU : String) (fid sid : Nat) (cid : Option Nat)
    (newId : Nat) : Job :=
  { id := newId
    position := posU
    supervisor := fid
    semester := some sid
    course := cid
    description := row.description
    hours := row.hours
    fundingSource := row.fundingSource }

/-- The student filter of `pushStudentJob`'s
`findOne(\x7bonyen: onyen\x7d)`: a missing `onyen` cell is `undefined`,
which mongoose drops from the filter, leaving `findOne(\x7b\x7d)` — it
matches every student. -/
def onyenQueryMatches (o : Option String) (s : Student) : Bool :=
  match o with
  | some x => s.onyen == x
  | none => true

/-- Helper `pushStudentJob(onyen, jobId)` (JobController.js lines 359–372):
find the first student matching the onyen filter; if none, reject
("student was not found"); else `update(\x7bonyen\x7d, \x7b$addToSet:
\x7bjobHistory: jobId\x7d\x7d)`, which updates the first matching
student, adding the id to the history iff it is not already there. -/
def pushStudentJob (st : Store) (o : Option String) (jobId : Nat) : Store × JobRowOutcome :=
  match st.students.find? (onyenQueryMatches o) with
  | none => (st, .studentNotFound)
  | some _ =>
    let students := updateFirst (onyenQueryMatches o)
      (fun s => { s with jobHistory := addToSet s.jobHistory jobId }) st.students
    ({ st with students := students }, .ok)

/-- The shared tail of both branches of `jobController.upload` (lines
294–312 and 320–338): duplicate-check with the validated element; if a
job matches, propagate the **existing** job's id into the student's
job history; else save the new job (enum validation on `position`) and
propagate the new id. -/
def finishJobRow (st : Store) (row : RawJobRow) (posU : String) (fid sid : Nat)
    (cid : Option Nat) : Store × JobRowOutcome :=
  let q := jobQueryOfRow row posU fid sid cid
  match st.jobs.find? (jobMatchesInput q) with
  | some j => pushStudentJob st row.onyen j.id
  | none =>
    if posU ∈ jobPositionEnum then
      let j := jobOfRow row posU fid sid cid st.nextId
      pushStudentJob { st with jobs := st.jobs ++ [j], nextId := st.nextId + 1 } row.onyen j.id
    else (st, .saveError)

/-- One row of `jobController.upload` (lines 272–354): resolve the
row's references, then run the duplicate-check / save / history-push
tail. -/
def processJobRow (st : Store) (row : RawJobRow) : Store × JobRowOutcome :=
  match resolveJobRow st.faculties st.semesters st.courses row with
  | .error e => (st, e)
  | .ok (posU, fid, sid, cid) => finishJobRow st row posU fid sid cid

/-! ## Helper lemmas -/

theorem updateFirst_find? (p : α → Bool) (f : α → α) (hpf : ∀ a, p (f a) = p a) :
    ∀ l : List α, (updateFirst p f l).find? p = (l.find? p).map f := by
  intro l
  induction l with
  | nil => rfl
  | cons x xs ih =>
    by_cases hx : p x
    · simp [updateFirst, hx, List.find?_cons, hpf x]
    · simp only [updateFirst, hx, Bool.false_eq_true, if_false]
      simp [List.find?_cons, hx, ih]

theorem updateFirst_eq_of_not_found (p : α → Bool) (f : α → α) :
    ∀ l : List α, l.find? p = none → updateFirst p f l = l := by
  intro l
  induction l with
  | nil => intro; rfl
  | cons x xs ih =>
    intro h
    rw [List.find?_cons] at h
    by_cases hx : p x
    · simp [hx] at h
    · simp only [hx, Bool.false_eq_true, if_false] at h
      simp [updateFirst, hx, ih h]

theorem eraseP_id_not_mem (g : α → Nat) (i : Nat) :
    ∀ l : List α, (l.map g).Nodup →
      ∀ x ∈ l.eraseP (fun a => g a == i), g x ≠ i := by
  intro l
  induction l with
  | nil => intro _ x hx; simp [List.eraseP] at hx
  | cons a as ih =>
    intro hnd x hx
    rw [List.map_cons, List.nodup_cons] at hnd
    by_cases ha : g a = i
    · rw [List.eraseP_cons_of_pos (by simpa using ha)] at hx
      intro hgx
      exact hnd.1 (by rw [ha, ← hgx]; exact List.mem_map_of_mem g hx)
    · rw [List.eraseP_cons_of_neg (by simpa using ha)] at hx
      rcases List.mem_cons.mp hx with hx | hx
      · subst hx; exact ha
      · exact ih hnd.2 x hx

theorem addToSet_of_not_mem [BEq α] [LawfulBEq α] {l : List α} {x : α} (h : x ∉ l) :
    addToSet l x = l ++ [x] := by
  simp [addToSet, h]

theorem addToSet_of_mem [BEq α] [LawfulBEq α] {l : List α} {x : α} (h : x ∈ l) :
    addToSet l x = l := by
  simp [addToSet, h]

theorem optMatchesOpt_self [BEq α] [LawfulBEq α] (v : Option α) :
    optMatchesOpt v v = true := by
  cases v <;> simp [optMatchesOpt]

theorem optMatchesOpt_stripEmptyS (d : Option String) :
    optMatchesOpt (stripEmptyS d) d = true := by
  cases d with
  | none => rfl
  | some s =>
    by_cases hs : s = "" <;> simp [stripEmptyS, optMatchesOpt, hs]

/-- A freshly saved job satisfies its own duplicate-check filter. -/
theorem jobOfRow_matches (row : RawJobRow) (posU : String) (fid sid : Nat)
    (cid : Option Nat) (n : Nat) :
    jobMatchesInput (jobQueryOfRow row posU fid sid cid) (jobOfRow row posU fid sid cid n) = true := by
  simp only [jobMatchesInput, jobQueryOfRow, jobOfRow]
  simp [optMatches, optMatchesOpt_self, optMatchesOpt_stripEmptyS]

/-- Helper `pushStudentJob` never touches the job collection. -/
theorem pushStudentJob_jobs (st : Store) (o : Option String) (jid : Nat) :
    (pushStudentJob st o jid).1.jobs = st.jobs := by
  unfold pushStudentJob
  cases st.students.find? (onyenQueryMatches o) <;> rfl

/-- The onyen filter is insensitive to a job-history update. -/
theorem onyenQueryMatches_update (o : Option String) (h : List Nat) (s : Student) :
    onyenQueryMatches o { s with jobHistory := h } = onyenQueryMatches o s := by
  cases o <;> rfl

/-! ## Claim theorems -/

/-- Claim C9: the course-import category normalization is exactly the
mapping t/T→Theory, s/S→Systems, a/A/applications/Applications→Appls,
and every other string passes through unchanged. -/
theorem claim_category_normalization :
    (normalizeCategory "t" = "Theory" ∧ normalizeCategory "T" = "Theory" ∧
     normalizeCategory "s" = "Systems" ∧ normalizeCategory "S" = "Systems" ∧
     normalizeCategory "a" = "Appls" ∧ normalizeCategory "A" = "Appls" ∧
     normalizeCategory "applications" = "Appls" ∧
     normalizeCategory "Applications" = "Appls") ∧
    ∀ c : String,
      c ∉ (["t", "T", "s", "S", "a", "A", "applications", "Applications"] : List String) →
      normalizeCategory c = c := by
  constructor
  · refine ⟨rfl, rfl, rfl, rfl, rfl, rfl, rfl, rfl⟩
  · intro c hc
    simp only [List.mem_cons, List.not_mem_nil, or_false, not_or] at hc
    obtain ⟨h1, h2, h3, h4, h5, h6, h7, h8⟩ := hc
    simp [normalizeCategory, h1, h2, h3, h4, h5, h6, h7, h8]

/-- Claim C9 witness: a category outside the mapped codes passes
through unchanged. -/
theorem claim_category_normalization_witness : normalizeCategory "NA" = "NA" :=
  claim_category_normalization.2 "NA" (by decide)

/-! ### C1 — course delete guard -/

/-- Store for C1: one course, one grade on that course, one student
whose `grades` list holds that grade; no jobs. -/
def c1Store : Store :=
  { faculties := [{ id := 1, lastName := "Smith", firstName := "Jane" }]
    semesters := [{ id := 2, year := 2024, season := "FA" }]
    courses := [{ id := 7, department := "COMP", number := 410, univNumber := 410
                  name := "Foundations", category := "Systems", topic := ""
                  hours := 3, sect := "001", faculty := 1, semester := 2 }]
    jobs := []
    grades := [{ id := 9, grade := "H", course := 7 }]
    students := [{ id := 3, onyen := "guy", jobHistory := [], grades := [9] }]
    nextId := 20 }

/-- Claim C1 (evaluation at the failing input): in `c1Store` a student's
grades list references course 7 through grade 9, yet
`courseController.delete` removes the course — the student guard
queries a `courseHistory` field the Student schema does not declare, so
it never matches, and with no job referencing the course the delete
goes through instead of being refused naming the student. -/
theorem claim_course_delete_student_guard_dead :
    (∃ s ∈ c1Store.students, ∃ g ∈ c1Store.grades, g.id ∈ s.grades ∧ g.course = 7) ∧
    courseControllerDelete c1Store 7 = ({ c1Store with courses := [] }, .deleted) := by
  constructor
  · exact ⟨_, List.mem_singleton.mpr rfl, _, List.mem_singleton.mpr rfl, by decide, rfl⟩
  · rfl

/-! ### C2 — job delete guard -/

/-- Claim C2: deleting a Job that at least one student's `jobHistory`
references is refused naming the student and leaves the store (hence
the job) untouched; deleting a Job no student references removes
exactly that job record and succeeds. -/
theorem claim_job_delete_guard (st : Store) (i : Nat) :
    ((∃ s ∈ st.students, i ∈ s.jobHistory) →
      jobControllerDelete st i = (st, .studentReferencing)) ∧
    ((∀ s ∈ st.students, i ∉ s.jobHistory) → (∃ j ∈ st.jobs, j.id = i) →
      jobControllerDelete st i =
        ({ st with jobs := st.jobs.eraseP (fun j => j.id == i) }, .deleted) ∧
      ((st.jobs.map Job.id).Nodup →
        ∀ j ∈ (jobControllerDelete st i).1.jobs, j.id ≠ i)) := by
  constructor
  · rintro ⟨s, hs, hmem⟩
    have hfil : s ∈ st.students.filter (fun s => s.jobHistory.contains i) :=
      List.mem_filter.mpr ⟨hs, by simpa using hmem⟩
    have hlen : (st.students.filter (fun s => s.jobHistory.contains i)).length > 0 :=
      List.length_pos.mpr (List.ne_nil_of_mem hfil)
    simp only [jobControllerDelete]
    rw [if_pos hlen]
  · intro hnone hex
    have hfil : st.students.filter (fun s => s.jobHistory.contains i) = [] := by
      rw [List.filter_eq_nil_iff]
      intro s hs
      simpa using hnone s hs
    have hsome : (st.jobs.find? (fun j => j.id == i)).isSome := by
      rw [List.find?_isSome]
      rcases hex with ⟨j, hj, hid⟩
      exact ⟨j, hj, by simpa using hid⟩
    rcases Option.isSome_iff_exists.mp hsome with ⟨j', hj'⟩
    have hdel : jobControllerDelete st i =
        ({ st with jobs := st.jobs.eraseP (fun j => j.id == i) }, .deleted) := by
      simp only [jobControllerDelete, hfil]
      rw [if_neg (by simp)]
      rw [hj']
    refine ⟨hdel, fun hnd j hj => ?_⟩
    rw [hdel] at hj
    exact eraseP_id_not_mem Job.id i st.jobs hnd j hj

/-- Store for the C2 witness: a job referenced by a student (id 5) and
an unreferenced job (id 6). -/
def c2Store : Store :=
  { faculties := []
    semesters := []
    courses := []
    jobs := [{ id := 5, position := "TA", supervisor := 1, semester := some 2
               course := none, description := none, hours := none, fundingSource := none },
             { id := 6, position := "RA", supervisor := 1, semester := some 2
               course := none, description := none, hours := none, fundingSource := none }]
    grades := []
    students := [{ id := 3, onyen := "guy", jobHistory := [5], grades := [] }]
    nextId := 20 }

/-- Claim C2 witness: in `c2Store`, deleting job 5 (referenced) is
refused naming the student; deleting job 6 (unreferenced) removes it. -/
theorem claim_job_delete_guard_witness :
    jobControllerDelete c2Store 5 = (c2Store, .studentReferencing) ∧
    jobControllerDelete c2Store 6 =
      ({ c2Store with jobs := c2Store.jobs.eraseP (fun j => j.id == 6) }, .deleted) :=
  ⟨(claim_job_delete_guard c2Store 5).1
      (by decide : ∃ s ∈ c2Store.students, 5 ∈ s.jobHistory),
   ((claim_job_delete_guard c2Store 6).2 (by decide)
      (by decide : ∃ j ∈ c2Store.jobs, j.id = 6)).1⟩

/-! ### C5 — duplicate policy on create -/

/-- Claim C5 (amended): a Course/Job create whose candidate matches an
existing record on all provided fields is refused as a duplicate with
no insert; a candidate differing from every existing record in at
least one field inserts exactly one record, provided it also passes
the remaining create validation (Course: four-letter department and
enum-valid category; Job: enum-valid position — the schema validates
the enums on save). -/
theorem claim_create_duplicate_policy :
    (∀ (st : Store) (input : CourseInput),
        allFieldsExistCourse input = true →
        (∃ c ∈ st.courses, courseMatchesInput input c = true) →
        courseControllerPost st input = (st, .alreadyExists)) ∧
    (∀ (st : Store) (input : CourseInput),
        allFieldsExistCourse input = true →
        (∀ c ∈ st.courses, courseMatchesInput input c = false) →
        (input.department.getD "").length = 4 →
        (validateCourseInput input).category.getD "" ∈ courseCategoryEnum →
        courseControllerPost st input =
          ({ st with
              courses := st.courses ++ [courseOfInput (validateCourseInput input) st.nextId]
              nextId := st.nextId + 1 }, .created)) ∧
    (∀ (st : Store) (input : JobInput),
        (validateJobInput input).position.isSome = true →
        (validateJobInput input).supervisor.isSome = true →
        (∃ j ∈ st.jobs, jobMatchesInput (validateJobInput input) j = true) →
        jobControllerPost st input = (st, .alreadyExists)) ∧
    (∀ (st : Store) (input : JobInput),
        (validateJobInput input).position.isSome = true →
        (validateJobInput input).supervisor.isSome = true →
        (∀ j ∈ st.jobs, jobMatchesInput (validateJobInput input) j = false) →
        (validateJobInput input).position.getD "" ∈ jobPositionEnum →
        jobControllerPost st input =
          ({ st with
              jobs := st.jobs ++ [jobOfInput (validateJobInput input) st.nextId]
              nextId := st.nextId + 1 }, .created)) := by
  refine ⟨?_, ?_, ?_, ?_⟩
  · intro st input hAll hex
    have hfind : (st.courses.find? (courseMatchesInput input)).isSome := by
      rw [List.find?_isSome]
      rcases hex with ⟨c, hc, hm⟩
      exact ⟨c, hc, hm⟩
    rcases Option.isSome_iff_exists.mp hfind with ⟨c, hc⟩
    simp only [courseControllerPost, hAll, if_true, hc]
  · intro st input hAll hnone hlen hcat
    have hfind : st.courses.find? (courseMatchesInput input) = none :=
      List.find?_eq_none.mpr (fun c hc => by simp [hnone c hc])
    simp only [courseControllerPost, hAll, if_true, hfind]
    rw [if_neg (by omega)]
    have : (courseOfInput (validateCourseInput input) st.nextId).category ∈ courseCategoryEnum := by
      simpa [courseOfInput] using hcat
    rw [if_pos this]
  · intro st input hpos hsup hex
    have hfind' : (st.jobs.find? (jobMatchesInput (validateJobInput input))).isSome := by
      rw [List.find?_isSome]
      rcases hex with ⟨j, hj, hm⟩
      exact ⟨j, hj, hm⟩
    rcases Option.isSome_iff_exists.mp hfind' with ⟨j, hj⟩
    simp only [jobControllerPost, hpos, hsup, Bool.and_self, if_true, hj]
  · intro st input hpos hsup hnone henum
    have hfind : st.jobs.find? (jobMatchesInput (validateJobInput input)) = none :=
      List.find?_eq_none.mpr (fun j hj => by simp [hnone j hj])
    have henum' : (jobOfInput (validateJobInput input) st.nextId).position ∈ jobPositionEnum := by
      simpa [jobOfInput] using henum
    simp only [jobControllerPost, hpos, hsup, Bool.and_self, if_true, hfind, henum']

/-- Store for the C5 witness/counterexample: one course and one job. -/
def c5wStore : Store :=
  { faculties := []
    semesters := []
    courses := [{ id := 7, department := "COMP", number := 410, univNumber := 410
                  name := "Foundations", category := "Systems", topic := "T"
                  hours := 3, sect := "001", faculty := 1, semester := 2 }]
    jobs := [{ id := 8, position := "TA", supervisor := 1, semester := some 2
               course := none, description := none, hours := none, fundingSource := none }]
    grades := []
    students := []
    nextId := 30 }

/-- A course create payload equal to the stored course on every field. -/
def c5wCourseDup : CourseInput :=
  { department := some "COMP", number := some 410, univNumber := some 410
    name := some "Foundations", category := some "Systems", topic := some "T"
    hours := some 3, sect := some "001", faculty := some 1, semester := some 2 }

/-- A course create payload differing from the stored course (name). -/
def c5wCourseNew : CourseInput :=
  { c5wCourseDup with name := some "Compilers" }

/-- A job create payload equal to the stored job on every provided field. -/
def c5wJobDup : JobInput :=
  { position := some "TA", supervisor := some 1, semester := some 2
    course := none, description := none, hours := none, fundingSource := none }

/-- A job create payload differing from the stored job (position). -/
def c5wJobNew : JobInput :=
  { c5wJobDup with position := some "RA" }

/-- Claim C5 witness: in `c5wStore` the exact-duplicate course/job
payloads are refused and the differing ones insert exactly one record. -/
theorem claim_create_duplicate_policy_witness :
    courseControllerPost c5wStore c5wCourseDup = (c5wStore, .alreadyExists) ∧
    courseControllerPost c5wStore c5wCourseNew =
      ({ c5wStore with
          courses := c5wStore.courses ++ [courseOfInput (validateCourseInput c5wCourseNew) c5wStore.nextId]
          nextId := c5wStore.nextId + 1 }, .created) ∧
    jobControllerPost c5wStore c5wJobDup = (c5wStore, .alreadyExists) ∧
    jobControllerPost c5wStore c5wJobNew =
      ({ c5wStore with
          jobs := c5wStore.jobs ++ [jobOfInput (validateJobInput c5wJobNew) c5wStore.nextId]
          nextId := c5wStore.nextId + 1 }, .created) :=
  ⟨claim_create_duplicate_policy.1 c5wStore c5wCourseDup (by decide)
      (by decide : ∃ c ∈ c5wStore.courses, courseMatchesInput c5wCourseDup c = true),
   claim_create_duplicate_policy.2.1 c5wStore c5wCourseNew (by decide)
      (by decide) (by decide) (by decide),
   claim_create_duplicate_policy.2.2.1 c5wStore c5wJobDup (by decide) (by decide)
      (by decide : ∃ j ∈ c5wStore.jobs, jobMatchesInput (validateJobInput c5wJobDup) j = true),
   claim_create_duplicate_policy.2.2.2 c5wStore c5wJobNew (by decide) (by decide)
      (by decide) (by decide)⟩

/-- A course create payload differing from every stored course (number
and name) but with a two-letter department code. -/
def c5BadDeptInput : CourseInput :=
  { department := some "CS", number := some 999, univNumber := some 410
    name := some "Other", category := some "Systems", topic := some "T"
    hours := some 3, sect := some "001", faculty := some 1, semester := some 2 }

/-- Claim C5 (counterexample): `c5BadDeptInput` differs from every
stored record in at least one field and has all fields present, yet the
create does not insert — it is refused with the department-format
error, against the claim's unconditional "succeeds and inserts exactly
one record". -/
theorem claim_create_duplicate_policy_counterexample :
    allFieldsExistCourse c5BadDeptInput = true ∧
    (∀ c ∈ c5wStore.courses, courseMatchesInput c5BadDeptInput c = false) ∧
    courseControllerPost c5wStore c5BadDeptInput = (c5wStore, .deptFormatError) := by
  decide

/-! ### C6 — required-field gate on create -/

/-- Claim C6 (amended): a Course create missing (or empty in) any
schema-declared field is rejected with the required-param error and
persists nothing; a Job create is rejected that way only when
`position` or `supervisor` is missing after projection — the other
Job schema fields are not gated. -/
theorem claim_required_field_gate :
    (∀ (st : Store) (input : CourseInput),
        allFieldsExistCourse input = false →
        courseControllerPost st input = (st, .requiredParamNotFound)) ∧
    (∀ (st : Store) (input : JobInput),
        ((validateJobInput input).position.isSome &&
          (validateJobInput input).supervisor.isSome) = false →
        jobControllerPost st input = (st, .requiredParamNotFound)) := by
  constructor
  · intro st input h
    simp [courseControllerPost, h]
  · intro st input h
    simp [jobControllerPost, h]

/-- Empty store for the C6 side. -/
def c6Store : Store :=
  { faculties := [], semesters := [], courses := [], jobs := [], grades := []
    students := [], nextId := 0 }

/-- A course payload missing the department. -/
def c6CourseInput : CourseInput :=
  { department := none, number := some 410, univNumber := some 410
    name := some "Foundations", category := some "Systems", topic := some "T"
    hours := some 3, sect := some "001", faculty := some 1, semester := some 2 }

/-- A job payload with only position and supervisor. -/
def c6JobInput : JobInput :=
  { position := some "TA", supervisor := some 1, semester := none
    course := none, description := none, hours := none, fundingSource := none }

/-- Claim C6 witness: the course payload missing its department and a
job payload with an empty position are both rejected with nothing
persisted. -/
theorem claim_required_field_gate_witness :
    courseControllerPost c6Store c6CourseInput = (c6Store, .requiredParamNotFound) ∧
    jobControllerPost c6Store { c6JobInput with position := some "" } =
      (c6Store, .requiredParamNotFound) :=
  ⟨claim_required_field_gate.1 c6Store c6CourseInput (by decide),
   claim_required_field_gate.2 c6Store { c6JobInput with position := some "" } (by decide)⟩

/-- Claim C6 (counterexample): the job payload `c6JobInput` leaves the
schema-declared fields `semester`, `course`, `description`, `hours` and
`fundingSource` absent, yet the create is **not** rejected — a job
record is persisted — against the claim's "for every create request
(Course or Job) … rejected … and no record is persisted". -/
theorem claim_required_field_gate_counterexample :
    c6JobInput.semester = none ∧
    jobControllerPost c6Store c6JobInput =
      ({ c6Store with jobs := [jobOfInput (validateJobInput c6JobInput) 0], nextId := 1 },
        .created) := by
  decide

/-! ### C7 — department-format rejection -/

/-- The stored course for the C7 failing input. -/
def c7Course : Course :=
  { id := 7, department := "COMP", number := 410, univNumber := 410
    name := "Foundations", category := "Systems", topic := "T"
    hours := 3, sect := "001", faculty := 1, semester := 2 }

def c7Store : Store :=
  { faculties := [], semesters := [], courses := [c7Course], jobs := [], grades := []
    students := [], nextId := 30 }

/-- An update payload for course 7 whose department is the two-letter
code "CS", all other fields valid. -/
def c7Input : CourseInput :=
  { department := some "CS", number := some 410, univNumber := some 410
    name := some "Foundations", category := some "Systems", topic := some "T"
    hours := some 3, sect := some "001", faculty := some 1, semester := some 2 }

/-- Claim C7 (evaluation at the failing input): `courseController.put`
on course 7 with department "CS" renders the four-letter-code error
**and still applies the update** — the stored course's department
becomes "CS" — because the `if` that renders the error neither returns
nor has an `else` (part_000 lines 330–342); the claim says the
operation aborts entirely with no modification. -/
theorem claim_course_put_renders_error_but_updates :
    courseControllerPut c7Store 7 c7Input =
      ({ c7Store with courses := [applyCourseUpdate (validateCourseInput c7Input) c7Course] },
        .formatErrorThenUpdated) ∧
    (applyCourseUpdate (validateCourseInput c7Input) c7Course).department = "CS" := by
  decide

/-! ### C8 — header-row discarding -/

/-- Claim C8 (amended): the two `shift()`s discard the never-assigned
slot 0 and sheet row 1; the records the `forEach` processes are exactly
those of the non-empty sheet rows from row 2 on — sheet row 1 is never
processed, but sheet row 2 is. -/
theorem claim_upload_row_window {ρ : Type} (maxRow : Nat) (rowAt : Nat → Option ρ) (x : ρ) :
    x ∈ uploadProcessedRows maxRow rowAt ↔
      ∃ r, 2 ≤ r ∧ r ≤ maxRow ∧ rowAt r = some x := by
  unfold uploadProcessedRows uploadDataArray
  cases maxRow with
  | zero =>
    simp only [List.range']
    constructor
    · intro h; simp at h
    · rintro ⟨r, h2, h0, _⟩; omega
  | succ m =>
    rw [List.range'_succ]
    simp only [List.map_cons, List.drop_succ_cons, List.drop_zero]
    rw [List.filterMap_map, Function.id_comp, List.mem_filterMap]
    constructor
    · rintro ⟨r, hr, hsome⟩
      rcases List.mem_range'_1.mp hr with ⟨hr2, hrm⟩
      exact ⟨r, hr2, by omega, hsome⟩
    · rintro ⟨r, hr2, hrm, hsome⟩
      exact ⟨r, List.mem_range'_1.mpr ⟨hr2, by omega⟩, hsome⟩

/-- Store for the C8/C3 sheets: the faculty and semester the data row
resolves against. -/
def c3Store : Store :=
  { faculties := [{ id := 1, lastName := "Smith", firstName := "Jane" }]
    semesters := [{ id := 2, year := 2024, season := "FA" }]
    courses := [], jobs := [], grades := [], students := []
    nextId := 10 }

/-- A complete, resolvable course data row (all ten columns, semester
written with the comma the course importer's split expects). -/
def c8DataRow : RawCourseRow :=
  { department := some "COMP", number := some 410, univNumber := some 410
    name := some "Foundations", category := some "s", topic := some "X"
    hours := some 3, sect := some "001", faculty := some "Smith, Jane"
    semester := some "FA, 2024" }

/-- A header/instruction row: its cells are column titles, so the
assembled record has text in every mapped field (here only the name
cell matters for the error message). -/
def c8HeaderRow (t : String) : RawCourseRow :=
  { department := some t, number := none, univNumber := none
    name := some t, category := none, topic := none
    hours := none, sect := none, faculty := none, semester := none }

/-- The C8 sheet: header text in rows 1 and 2, data in row 3. -/
def c8RowAt : Nat → Option RawCourseRow :=
  fun r =>
    if r = 1 then some (c8HeaderRow "HEAD1")
    else if r = 2 then some (c8HeaderRow "HEAD2")
    else if r = 3 then some c8DataRow
    else none

/-- Claim C8 (counterexample): on a sheet whose rows 1 and 2 hold
header text and whose row 3 holds data, the upload processes **sheet
row 2**: the run produces a row-level "missing a field" error naming
the row-2 header cell, against the claim that no error is ever produced
from a cell in sheet rows 1–2. -/
theorem claim_upload_row_window_counterexample :
    c8HeaderRow "HEAD2" ∈ uploadProcessedRows 3 c8RowAt ∧
    (courseUpload c3Store 3 c8RowAt).2 =
      [(some "HEAD2", .missingField), (some "Foundations", .ok)] := by
  decide

/-! ### C3 — course-import end-to-end scenario -/

/-- The spec scenario's row 3, exactly as written: the seven fields
`department`/`number`/`name`/`category`/`hours`/`faculty`/`semester`
(the schema's `univNumber`, `topic` and `section` columns are absent). -/
def c3Row7 : RawCourseRow :=
  { department := some "COMP", number := some 410, univNumber := none
    name := some "Foundations", category := some "s", topic := none
    hours := some 3, sect := none, faculty := some "Smith, Jane"
    semester := some "FA 2024" }

/-- The scenario row completed with the three missing columns but with
the semester cell still written `FA 2024` (space-separated). -/
def c3Row10 : RawCourseRow :=
  { c3Row7 with univNumber := some 410, topic := some "X", sect := some "001" }

/-- The scenario row completed and with the semester cell written with
a comma, `FA, 2024`. -/
def c3Row10c : RawCourseRow :=
  { c3Row10 with semester := some "FA, 2024" }

/-- Claim C3 (counterexample): with the matching Faculty and Semester
stored, the spec's literal row creates **zero** courses — it fails the
required-field gate (the Course schema also declares `univNumber`,
`topic` and `section`); and even the completed row with semester
`FA 2024` creates zero courses — `courseController.upload` splits the
semester cell on the *comma* regex, so `FA 2024` stays in one piece,
`parseInt` of the missing second part is `NaN`, and the lookup fails
with the "semester is incorrect" row error, against the claim that
exactly one Course is created and that the split is on whitespace. -/
theorem claim_course_import_scenario_counterexample :
    processCourseRow c3Store c3Row7 = (c3Store, .missingField) ∧
    processCourseRow c3Store c3Row10 = (c3Store, .semesterIncorrect) := by
  decide

/-- Claim C3 (amended): with the matching Faculty (lastName "Smith",
firstName "Jane") and Semester (year 2024, season "FA") stored and no
course stored, a row holding all ten Course columns with category `s`,
faculty `Smith, Jane` and the semester written `FA, 2024` —
comma-separated, matched on the uppercased season and the parsed
year — creates exactly one Course, with category "Systems" and the
resolved faculty and semester identifiers. -/
theorem claim_course_import_scenario :
    processCourseRow c3Store c3Row10c =
      ({ c3Store with
          courses := [{ id := 10, department := "COMP", number := 410, univNumber := 410
                        name := "Foundations", category := "Systems", topic := "X"
                        hours := 3, sect := "001", faculty := 1, semester := 2 }]
          nextId := 11 }, .ok) := by
  decide

/-! ### C4 — job-import idempotency -/

/-- Claim C4 (amended): a job row whose faculty, semester, (optional)
course and student lookups succeed, whose uppercased position is one
of the schema's enum values, and which matches no already-stored job,
when imported twice into a well-formed store, leaves exactly one matching
Job record, and the student's job history holds that job's identifier
exactly once (set-add semantics). -/
theorem claim_job_import_idempotent
    (st : Store) (row : RawJobRow) (posU : String) (fid sid : Nat) (cid : Option Nat)
    (hwf : StoreWf st)
    (hres : resolveJobRow st.faculties st.semesters st.courses row = .ok (posU, fid, sid, cid))
    (hstu : (st.students.find? (onyenQueryMatches row.onyen)).isSome = true)
    (hnodup : st.jobs.find? (jobMatchesInput (jobQueryOfRow row posU fid sid cid)) = none)
    (henum : posU ∈ jobPositionEnum) :
    ((processJobRow (processJobRow st row).1 row).1.jobs.countP
        (jobMatchesInput (jobQueryOfRow row posU fid sid cid)) = 1) ∧
    ∃ stu, (processJobRow (processJobRow st row).1 row).1.students.find?
        (onyenQueryMatches row.onyen) = some stu ∧
      stu.jobHistory.count st.nextId = 1 := by
  obtain ⟨stu0, hstu0⟩ := Option.isSome_iff_exists.mp hstu
  have hstu0mem : stu0 ∈ st.students := List.mem_of_find?_eq_some hstu0
  have hfresh : st.nextId ∉ stu0.jobHistory := fun hmem =>
    absurd (hwf.2 stu0 hstu0mem st.nextId hmem) (lt_irrefl st.nextId)
  have hcount0 : stu0.jobHistory.count st.nextId = 0 := List.count_eq_zero.mpr hfresh
  have hjobs0 : st.jobs.countP (jobMatchesInput (jobQueryOfRow row posU fid sid cid)) = 0 :=
    List.countP_eq_zero.mpr (List.find?_eq_none.mp hnodup)
  have hpf : ∀ a : Student, onyenQueryMatches row.onyen
      { a with jobHistory := addToSet a.jobHistory st.nextId } = onyenQueryMatches row.onyen a :=
    fun a => onyenQueryMatches_update row.onyen _ a
  have hm : jobMatchesInput (jobQueryOfRow row posU fid sid cid)
      (jobOfRow row posU fid sid cid st.nextId) = true :=
    jobOfRow_matches row posU fid sid cid st.nextId
  have h1 : processJobRow st row =
      ({ st with
          jobs := st.jobs ++ [jobOfRow row posU fid sid cid st.nextId]
          nextId := st.nextId + 1
          students := updateFirst (onyenQueryMatches row.onyen)
            (fun s => { s with jobHistory := addToSet s.jobHistory st.nextId }) st.students },
        .ok) := by
    simp only [processJobRow, hres]
    simp only [finishJobRow, hnodup]
    rw [if_pos henum]
    simp only [pushStudentJob, hstu0]
    rfl
  have h2 : processJobRow
      ({ st with
          jobs := st.jobs ++ [jobOfRow row posU fid sid cid st.nextId]
          nextId := st.nextId + 1
          students := updateFirst (onyenQueryMatches row.onyen)
            (fun s => { s with jobHistory := addToSet s.jobHistory st.nextId }) st.students } : Store)
      row =
      ({ st with
          jobs := st.jobs ++ [jobOfRow row posU fid sid cid st.nextId]
          nextId := st.nextId + 1
          students := updateFirst (onyenQueryMatches row.onyen)
            (fun s => { s with jobHistory := addToSet s.jobHistory st.nextId })
            (updateFirst (onyenQueryMatches row.onyen)
              (fun s => { s with jobHistory := addToSet s.jobHistory st.nextId }) st.students) },
        .ok) := by
    simp only [processJobRow, hres]
    simp only [finishJobRow]
    rw [List.find?_append, hnodup, Option.none_or, List.find?_cons_of_pos _ hm]
    simp only [pushStudentJob]
    rw [updateFirst_find? _ _ hpf, hstu0]
    rfl
  rw [h1]
  simp only []
  rw [h2]
  constructor
  · simp only [List.countP_append, hjobs0, List.countP_cons, hm]
    rfl
  · refine ⟨{ stu0 with jobHistory := addToSet (addToSet stu0.jobHistory st.nextId) st.nextId }, ?_, ?_⟩
    · rw [updateFirst_find? _ _ hpf, updateFirst_find? _ _ hpf, hstu0]
      rfl
    · rw [addToSet_of_not_mem hfresh,
        addToSet_of_mem (List.mem_append_right _ (List.mem_singleton.mpr rfl)),
        List.count_append, hcount0]
      simp

/-- Store for the C4/C10 witnesses: the faculty, semester and student
the job row resolves against; no jobs yet. -/
def c4Store : Store :=
  { faculties := [{ id := 1, lastName := "Smith", firstName := "Jane" }]
    semesters := [{ id := 2, year := 2024, season := "FA" }]
    courses := [], jobs := [], grades := []
    students := [{ id := 3, onyen := "guy", jobHistory := [], grades := [] }]
    nextId := 10 }

/-- A resolvable job row without a course cell, position written `ta`. -/
def c4Row : RawJobRow :=
  { onyen := some "guy", position := some "ta", supervisor := some "Smith, Jane"
    semester := some "FA 2024", course := none, description := none
    hours := none, fundingSource := none }

/-- Claim C4 witness: importing `c4Row` twice into `c4Store` leaves
exactly one matching Job and the student's history holds its id once. -/
theorem claim_job_import_idempotent_witness :
    ((processJobRow (processJobRow c4Store c4Row).1 c4Row).1.jobs.countP
        (jobMatchesInput (jobQueryOfRow c4Row "TA" 1 2 none)) = 1) ∧
    ∃ stu, (processJobRow (processJobRow c4Store c4Row).1 c4Row).1.students.find?
        (onyenQueryMatches c4Row.onyen) = some stu ∧
      stu.jobHistory.count c4Store.nextId = 1 :=
  claim_job_import_idempotent c4Store c4Row "TA" 1 2 none
    (by constructor <;> decide) (by rfl) (by decide) (by decide) (by decide)

/-- The same row with the position cell `boss`. -/
def c4BadRow : RawJobRow :=
  { c4Row with position := some "boss" }

/-- Claim C4 (counterexample): for the row `c4BadRow` the faculty,
semester and student lookups all succeed, yet importing it twice leaves
**zero** matching Job records — `BOSS` fails the position-enum
validation on save, each import errors, and nothing is stored — against
the claim's "exactly one matching Job record" for every row whose
lookups succeed. -/
theorem claim_job_import_idempotent_counterexample :
    resolveJobRow c4Store.faculties c4Store.semesters c4Store.courses c4BadRow =
      .ok ("BOSS", 1, 2, none) ∧
    (c4Store.students.find? (onyenQueryMatches c4BadRow.onyen)).isSome = true ∧
    (processJobRow (processJobRow c4Store c4BadRow).1 c4BadRow).1.jobs = [] := by
  refine ⟨by rfl, by decide, by decide⟩

/-! ### C10 — position uppercasing on job import -/

/-- Claim C10: on job import, once the required cells are present and
the faculty/semester (and optional course) lookups succeed, the
position text is uppercased: the resolution yields the uppercased
position, an inserted job stores the uppercased position, and the
duplicate check runs against the uppercased position — a row whose
position matches an existing job up to case inserts nothing. -/
theorem claim_job_import_uppercases_position :
    (∀ (fs : List Faculty) (ss : List Semester) (cs : List Course) (row : RawJobRow)
        (pos posU : String) (fid sid : Nat) (cid : Option Nat),
        row.position = some pos →
        resolveJobRow fs ss cs row = .ok (posU, fid, sid, cid) →
        posU = toUpperStr pos) ∧
    (∀ (st : Store) (row : RawJobRow) (pos : String) (fid sid : Nat) (cid : Option Nat),
        row.position = some pos →
        resolveJobRow st.faculties st.semesters st.courses row =
          .ok (toUpperStr pos, fid, sid, cid) →
        st.jobs.find? (jobMatchesInput (jobQueryOfRow row (toUpperStr pos) fid sid cid)) = none →
        toUpperStr pos ∈ jobPositionEnum →
        (processJobRow st row).1.jobs =
          st.jobs ++ [jobOfRow row (toUpperStr pos) fid sid cid st.nextId]) ∧
    (∀ (st : Store) (row : RawJobRow) (pos : String) (fid sid : Nat) (cid : Option Nat) (j : Job),
        row.position = some pos →
        resolveJobRow st.faculties st.semesters st.courses row =
          .ok (toUpperStr pos, fid, sid, cid) →
        st.jobs.find? (jobMatchesInput (jobQueryOfRow row (toUpperStr pos) fid sid cid)) = some j →
        (processJobRow st row).1.jobs = st.jobs) := by
  refine ⟨?_, ?_, ?_⟩
  · intro fs ss cs row pos posU fid sid cid hpos hres
    simp only [resolveJobRow, hpos] at hres
    repeat' split at hres
    all_goals simp_all
  · intro st row pos fid sid cid hpos hres hnone henum
    simp only [processJobRow, hres]
    simp only [finishJobRow, hnone]
    rw [if_pos henum, pushStudentJob_jobs]
  · intro st row pos fid sid cid j hpos hres hfound
    simp only [processJobRow, hres]
    simp only [finishJobRow, hfound]
    rw [pushStudentJob_jobs]

/-- Store `c4Store` with an already-stored `TA` job for the same supervisor
and semester. -/
def c10DupStore : Store :=
  { c4Store with
    jobs := [{ id := 5, position := "TA", supervisor := 1, semester := some 2
               course := none, description := none, hours := none, fundingSource := none }] }

/-- Claim C10 witness: the row with position `ta` inserts a job stored
as `TA` into `c4Store`, and against `c10DupStore` (which already holds
the `TA` job) the same row inserts nothing. -/
theorem claim_job_import_uppercases_position_witness :
    (processJobRow c4Store c4Row).1.jobs =
      c4Store.jobs ++ [jobOfRow c4Row (toUpperStr "ta") 1 2 none c4Store.nextId] ∧
    (processJobRow c10DupStore c4Row).1.jobs = c10DupStore.jobs :=
  ⟨claim_job_import_uppercases_position.2.1 c4Store c4Row "ta" 1 2 none
      (by decide) (by rfl) (by decide) (by decide),
   claim_job_import_uppercases_position.2.2 c10DupStore c4Row "ta" 1 2 none
      { id := 5, position := "TA", supervisor := 1, semester := some 2
        course := none, description := none, hours := none, fundingSource := none }
      (by decide) (by rfl) (by rfl)⟩

end GradTracking
